import Mathlib

/-!
Verification of the paired-contig builder (`PctgBuilder.hpp`) of gam-ngs.

The repository source under scrutiny is the header `src/lib/include/pctg/PctgBuilder.hpp`,
which declares the builder's data collaborators, the numeric acceptance thresholds and the
signatures of all builder operations.  The member-function bodies (the `.cc` translation
unit) and the collaborator headers (`PairedContig.hpp`, `ContigInPctgInfo.hpp`,
`BestPctgCtgAlignment.hpp`, `Block.hpp`, `HashContigMemPool.hpp`) are not part of the
provided sources, so those parts are modelled from the specification, as indicated in
each doc comment.
-/

set_option autoImplicit false
set_option maxRecDepth 100000

deriving instance DecidableEq for Except

namespace GamNgs

/-! ## Numeric thresholds (from `PctgBuilder.hpp`, lines 24-37) -/

/-- Source constant `DEFAULT_MAX_GAPS` (`#define DEFAULT_MAX_GAPS 300`). -/
def DEFAULT_MAX_GAPS : Nat := 300

/-- Source constant `DEFAULT_MAX_SEARCHED_ALIGNMENT` (`#define DEFAULT_MAX_SEARCHED_ALIGNMENT 400000`). -/
def DEFAULT_MAX_SEARCHED_ALIGNMENT : Nat := 400000

/-- Source constant `MIN_ALIGNMENT` (`#define MIN_ALIGNMENT 100`). -/
def MIN_ALIGNMENT : Nat := 100

/-- Source constant `MIN_HOMOLOGY` (`#define MIN_HOMOLOGY 85`): a homology percentage,
the spec describes the homology score itself as a fraction in `[0,1]`. -/
def MIN_HOMOLOGY : Nat := 85

/-- Source constant `MIN_ALIGNMENT_QUOTIENT` (`#define MIN_ALIGNMENT_QUOTIENT 0.001`),
modelled exactly as the rational `1/1000`. -/
def MIN_ALIGNMENT_QUOTIENT : ℚ := mkRat 1 1000

/-- The `MIN_HOMOLOGY` percentage as the homology-score fraction it stands for. -/
def minHomologyFrac : ℚ := mkRat MIN_HOMOLOGY 100

/-- The mismatch-to-length ratio of an alignment of `n` mismatches over length `l`. -/
def mismatchFrac (n l : Nat) : ℚ := mkRat n l

/-! ## Data model -/

/-- Modelled from the spec: `Contig.hpp` is not among the provided sources.  A Contig is
"an immutable sequence-plus-quality buffer identified by an ID"; only the ID and the base
sequence take part in the builder logic modelled here. -/
structure Contig where
  id : Nat
  seq : List Char
  deriving DecidableEq, Repr

/-- Modelled from the spec: `Block.hpp` is not among the provided sources.  A Block links
a master contig ID and coordinate range to a slave contig ID and coordinate range, with
an orientation flag. -/
structure Block where
  masterId : Nat
  masterStart : Nat
  masterEnd : Nat
  slaveId : Nat
  slaveStart : Nat
  slaveEnd : Nat
  reversed : Bool
  deriving DecidableEq, Repr

/-- Modelled from the spec: the `Frame` type is not among the provided sources.  A Frame
is "a coordinate range on a contig with strand orientation". -/
structure Frame where
  ctgId : Nat
  start : Nat
  stop : Nat
  reversed : Bool
  deriving DecidableEq, Repr

/-- Modelled from the spec: `ContigInPctgInfo.hpp` is not among the provided sources.
Per-source-contig bookkeeping attached to a merged contig: source contig ID, assembly
origin (master/slave), offset within the paired contig, contributed length, and the
leading/trailing gap sizes. -/
structure ContigInPctgInfo where
  ctgId : Nat
  isMaster : Bool
  offset : Nat
  length : Nat
  gaps : Nat × Nat
  deriving DecidableEq, Repr

/-- Modelled from the spec: `PairedContig.hpp` is not among the provided sources.  The
evolving merged-contig object: an id, an ordered base sequence, and the collection of
`ContigInPctgInfo` records describing which source contigs contributed which spans. -/
structure PairedContig where
  pctgId : Nat
  seq : List Char
  infos : List ContigInPctgInfo
  deriving DecidableEq, Repr

/-- Modelled from the spec: `BestPctgCtgAlignment.hpp` is not among the provided sources.
The outcome of an alignment search: the aligned position pair (position in the paired
contig, position in the contig), the alignment length, the homology score (a fraction in
`[0,1]`), and the number of mismatches (disattended constraints). -/
structure BestPctgCtgAlignment where
  pos : Nat × Nat
  len : Nat
  homology : ℚ
  mismatches : Nat
  deriving DecidableEq, Repr

/-- Modelled from the spec: error kinds of §7 — `NotFound` for a contig ID absent from
its pool, `InvalidState` for a first-contig operation on a non-empty paired contig, and
the configuration error of §9 for a merge attempted on a builder whose collaborators are
not configured. -/
inductive BuilderError where
  | notFound
  | invalidState
  | notConfigured
  deriving DecidableEq, Repr

/-- Modelled from the spec: the designed merge outcome of §7 — a merge either splices the
contig in or is rejected by the acceptance thresholds (`AlignmentRejected`). -/
inductive MergeOutcome where
  | merged
  | rejected
  deriving DecidableEq, Repr

/-- Modelled from the spec: `HashContigMemPool.hpp` is not among the provided sources.
A contig pool maps reference names to base sequences; lookups are read-only. -/
abbrev ContigMemPool : Type := List (String × List Char)

/-- Modelled from the spec: the id-to-name reference vector sourced from an
alignment-file header (`BamTools::RefVector` in the header). -/
abbrev RefVector : Type := List String

/-- The builder's collaborator fields, from `PctgBuilder.hpp` lines 44-47 and its
constructor (lines 61-65) whose four collaborator parameters all default to `NULL`:
a field is `none` exactly when the corresponding pointer is null. -/
structure PctgBuilder where
  masterPool : Option ContigMemPool
  slavePool : Option ContigMemPool
  masterRefVector : Option RefVector
  slaveRefVector : Option RefVector
  deriving DecidableEq, Repr

/-- A builder constructed with all collaborator arguments left at their `NULL`
defaults (`PctgBuilder()` in the header). -/
def PctgBuilder.default : PctgBuilder :=
  { masterPool := none, slavePool := none, masterRefVector := none, slaveRefVector := none }

/-- Modelled from the spec (§9): the builder "is only usable once fully configured" —
all four collaborator pointers are non-null. -/
def configured (b : PctgBuilder) : Bool :=
  b.masterPool.isSome && b.slavePool.isSome && b.masterRefVector.isSome && b.slaveRefVector.isSome

/-! ## Contig loading (§4.1) -/

/-- Modelled from the spec: pool lookup by reference name, returning the stored base
sequence when the name is present. -/
def poolLookup (pool : ContigMemPool) (nm : String) : Option (List Char) :=
  (List.find? (fun e => e.1 == nm) pool).map Prod.snd

/-- Modelled from the spec: the body of `loadMasterContig` (header line 72) is not among
the provided sources.  "Fetch a Contig by ID from the master pool.  Fails with a NotFound
condition if the ID is absent from the pool.  No side effects; pure lookup plus copy."
The ID is translated to a reference name through the master reference vector, and the
returned Contig carries the requested ID. -/
def loadMasterContig (b : PctgBuilder) (ctgId : Nat) : Except BuilderError Contig :=
  match b.masterPool, b.masterRefVector with
  | some pool, some rv =>
    match rv.get? ctgId with
    | none => .error .notFound
    | some nm =>
      match poolLookup pool nm with
      | none => .error .notFound
      | some s => .ok { id := ctgId, seq := s }
  | _, _ => .error .notConfigured

/-- Modelled from the spec: the body of `loadSlaveContig` (header line 79) is not among
the provided sources.  Same contract as `loadMasterContig`, over the slave pool and the
slave reference vector. -/
def loadSlaveContig (b : PctgBuilder) (ctgId : Nat) : Except BuilderError Contig :=
  match b.slavePool, b.slaveRefVector with
  | some pool, some rv =>
    match rv.get? ctgId with
    | none => .error .notFound
    | some nm =>
      match poolLookup pool nm with
      | none => .error .notFound
      | some s => .ok { id := ctgId, seq := s }
  | _, _ => .error .notConfigured

/-! ## Paired-contig initialization (§4.2) -/

/-- Modelled from the spec: the body of `initByContig` (header line 86) is not among the
provided sources.  "Creates a new PairedContig consisting solely of the named master
contig's bases, with a single ContigInPctgInfo covering the whole span, offset 0, no
gaps." -/
def initByContig (b : PctgBuilder) (pctgId ctgId : Nat) : Except BuilderError PairedContig :=
  match loadMasterContig b ctgId with
  | .error e => .error e
  | .ok ctg =>
    .ok { pctgId := pctgId, seq := ctg.seq,
          infos := [{ ctgId := ctgId, isMaster := true, offset := 0,
                      length := ctg.seq.length, gaps := (0, 0) }] }

/-- Modelled from the spec: the body of `addFirstContigTo` (header line 120) is not among
the provided sources.  "Same effect as `initByContig` but expressed as add to an existing
(must be empty) PairedContig — fails with InvalidState if `pctg` already has contributing
contigs" (header: throws `std::invalid_argument` if `pctg` is not empty). -/
def addFirstContigTo (b : PctgBuilder) (pctg : PairedContig) (ctgId : Nat) :
    Except BuilderError PairedContig :=
  if pctg.infos = [] then initByContig b pctg.pctgId ctgId
  else .error .invalidState

/-- Modelled from the spec: the body of `addFirstBlockTo` (header line 109) is not among
the provided sources.  Seeds an empty PairedContig from a Block pair: the master and
slave contigs are anchored so that their shared span overlaps, a representative sequence
is formed (master evidence where both are present, slave evidence on the slave-only
overhangs), and ContigInPctgInfo entries are created for both source contigs at their
offsets.  Fails with InvalidState if `pctg` is not empty. -/
def addFirstBlockTo (b : PctgBuilder) (pctg : PairedContig) (firstBlock lastBlock : Block) :
    Except BuilderError PairedContig :=
  if pctg.infos = [] then
    match loadMasterContig b firstBlock.masterId, loadSlaveContig b firstBlock.slaveId with
    | .ok mctg, .ok sctg =>
      let mOff : Nat := firstBlock.slaveStart - firstBlock.masterStart
      let sOff : Nat := firstBlock.masterStart - firstBlock.slaveStart
      .ok { pctgId := pctg.pctgId,
            seq := sctg.seq.take mOff ++ mctg.seq ++
                   sctg.seq.drop (mOff + mctg.seq.length - sOff),
            infos := [{ ctgId := firstBlock.masterId, isMaster := true, offset := mOff,
                        length := mctg.seq.length, gaps := (0, 0) },
                      { ctgId := firstBlock.slaveId, isMaster := false, offset := sOff,
                        length := sctg.seq.length, gaps := (0, 0) }] }
    | .error e, _ => .error e
    | _, .error e => .error e
  else .error .invalidState

/-! ## Extension primitives (§4.3) -/

/-- Modelled from the spec: the body of `shiftPctgOf` (header line 163) is not among the
provided sources.  "Returns a copy of `orig` with `shiftSize` blank/unknown bases
prepended and every contributing contig's recorded offset increased by `shiftSize`." -/
def shiftPctgOf (orig : PairedContig) (shiftSize : Nat) : PairedContig :=
  { orig with
    seq := List.replicate shiftSize 'N' ++ orig.seq,
    infos := orig.infos.map (fun i => { i with offset := i.offset + shiftSize }) }

/-- Modelled from the spec: the body of `extendPctgWithCtgFrom` (header lines 132-138) is
not among the provided sources.  "Appends bases from `ctg` to the right end of `orig`
starting at `pos.second` (the contig's local position) matching `pos.first` (the paired
contig's local position), inserting `gaps` (a pair: gap-before, gap-after) as
placeholder/low-confidence positions", and records the updated `ContigInPctgInfo` for
`ctg` tagged master or slave per `isMasterCtg`. -/
def extendPctgWithCtgFrom (orig : PairedContig) (ctg : Contig) (ctgInfo : ContigInPctgInfo)
    (pos : Nat × Nat) (gaps : Nat × Nat) (isMasterCtg : Bool) : PairedContig :=
  { orig with
    seq := orig.seq.take pos.1 ++ List.replicate gaps.1 'N' ++
           ctg.seq.drop pos.2 ++ List.replicate gaps.2 'N',
    infos := { ctgId := ctgInfo.ctgId, isMaster := isMasterCtg,
               offset := pos.1 + gaps.1, length := ctg.seq.length - pos.2,
               gaps := gaps } :: orig.infos }

/-- Modelled from the spec: the body of `extendPctgWithCtgUpto` (header lines 149-155) is
not among the provided sources.  "It grows `orig` by `pctgShift` bases taken from `ctg`
before the first matching position, and then shifts every existing ContigInPctgInfo
offset in `orig` by `pctgShift`". -/
def extendPctgWithCtgUpto (orig : PairedContig) (ctg : Contig) (ctgInfo : ContigInPctgInfo)
    (pos : Nat × Nat) (pctgShift : Nat) (isMasterCtg : Bool) : PairedContig :=
  { orig with
    seq := (ctg.seq.drop (pos.2 - pctgShift)).take pctgShift ++ orig.seq,
    infos := orig.infos.map (fun i => { i with offset := i.offset + pctgShift }) }

/-! ## Merge acceptance and splicing (§4.4) -/

/-- Modelled from the spec: the acceptance test of §4.4 — an alignment is acceptable when
its length reaches `MIN_ALIGNMENT`, its homology reaches `MIN_HOMOLOGY` percent, and its
mismatch-to-length ratio does not exceed `MIN_ALIGNMENT_QUOTIENT`. -/
def isAcceptable (a : BestPctgCtgAlignment) : Bool :=
  decide (MIN_ALIGNMENT ≤ a.len) &&
  decide (minHomologyFrac ≤ a.homology) &&
  decide (mismatchFrac a.mismatches a.len ≤ MIN_ALIGNMENT_QUOTIENT)

/-- Records one more contributing-contig entry on a paired contig. -/
def addCtgInfo (p : PairedContig) (i : ContigInPctgInfo) : PairedContig :=
  { p with infos := i :: p.infos }

/-- Modelled from the spec: the splice step shared by `mergeMasterCtgInPos` and
`mergeSlaveCtgInPos` once the contig's position does not stick out on the left
(`cp ≤ pp`).  If the candidate extends beyond the right end of the paired contig, the
right-extension primitive is invoked; under full containment only a new
`ContigInPctgInfo` is recorded — no base-sequence mutation. -/
def spliceCtgInPctg (p : PairedContig) (ctg : Contig) (ctgId : Nat) (pp cp : Nat)
    (isMasterCtg : Bool) : PairedContig :=
  if p.seq.length < pp + (ctg.seq.length - cp) then
    extendPctgWithCtgFrom p ctg
      { ctgId := ctgId, isMaster := isMasterCtg, offset := 0, length := 0, gaps := (0, 0) }
      (pp, cp) (0, 0) isMasterCtg
  else
    addCtgInfo p
      { ctgId := ctgId, isMaster := isMasterCtg, offset := pp - cp,
        length := ctg.seq.length, gaps := (0, 0) }

/-- Modelled from the spec: the common body of the two `merge*CtgInPos` variants.  If the
alignment fails acceptance the merge is rejected and the paired contig is returned
unchanged; otherwise the candidate is spliced in: a left overhang first shifts the
paired contig to make room, then the splice step runs at the aligned position. -/
def mergeAnyCtgInPos (p : PairedContig) (ctg : Contig) (ctgId : Nat)
    (bestAlign : BestPctgCtgAlignment) (isMasterCtg : Bool) : PairedContig × MergeOutcome :=
  if isAcceptable bestAlign then
    if bestAlign.pos.1 < bestAlign.pos.2 then
      (spliceCtgInPctg (shiftPctgOf p (bestAlign.pos.2 - bestAlign.pos.1)) ctg ctgId
        bestAlign.pos.2 bestAlign.pos.2 isMasterCtg, .merged)
    else
      (spliceCtgInPctg p ctg ctgId bestAlign.pos.1 bestAlign.pos.2 isMasterCtg, .merged)
  else (p, .rejected)

/-- Modelled from the spec: the body of `mergeMasterCtgInPos` (header lines 199-203) is
not among the provided sources.  A merge call needs the builder's collaborators
configured (§9); then the master-side splice of §4.4 runs. -/
def mergeMasterCtgInPos (b : PctgBuilder) (p : PairedContig) (ctg : Contig) (ctgId : Nat)
    (bestAlign : BestPctgCtgAlignment) : Except BuilderError (PairedContig × MergeOutcome) :=
  if configured b then .ok (mergeAnyCtgInPos p ctg ctgId bestAlign true)
  else .error .notConfigured

/-- Modelled from the spec: the body of `mergeSlaveCtgInPos` (header lines 213-217) is
not among the provided sources.  Slave-side counterpart of `mergeMasterCtgInPos`. -/
def mergeSlaveCtgInPos (b : PctgBuilder) (p : PairedContig) (ctg : Contig) (ctgId : Nat)
    (bestAlign : BestPctgCtgAlignment) : Except BuilderError (PairedContig × MergeOutcome) :=
  if configured b then .ok (mergeAnyCtgInPos p ctg ctgId bestAlign false)
  else .error .notConfigured

/-- Modelled from the spec: the body of `mergeCtgInPos` (header lines 184-189) is not
among the provided sources.  "Dispatches to `mergeMasterCtgInPos` or
`mergeSlaveCtgInPos` based on `mergeMaster`." -/
def mergeCtgInPos (b : PctgBuilder) (p : PairedContig) (ctg : Contig) (ctgId : Nat)
    (bestAlign : BestPctgCtgAlignment) (mergeMaster : Bool) :
    Except BuilderError (PairedContig × MergeOutcome) :=
  if mergeMaster then mergeMasterCtgInPos b p ctg ctgId bestAlign
  else mergeSlaveCtgInPos b p ctg ctgId bestAlign

/-! ## Alignment search (§4.5) -/

/-- Modelled from the spec: the alignment-scoring primitive of §6, "given two bounded
sequence windows, returns an edit-distance/homology score", applied position-by-position:
the alignment length is the overlap of the two windows and the homology is the fraction
of matching bases. -/
def alignWindow (a c : List Char) : Nat × Nat :=
  let z := a.zip c
  (z.length, (z.filter (fun q => q.1 == q.2)).length)

/-- Modelled from the spec: one candidate of the §4.5 search, identified by an offset in
the paired contig's window and a gap size applied on the contig's side, scored through
the alignment primitive. -/
def scoreCandidate (p : PairedContig) (ctg : Contig) (pctgPos cstart off gap : Nat) :
    BestPctgCtgAlignment :=
  let a := p.seq.drop (pctgPos + off)
  let c := ctg.seq.drop (cstart + gap)
  let s := alignWindow a c
  { pos := (pctgPos + off, cstart + gap), len := s.1,
    homology := mkRat s.2 s.1, mismatches := s.1 - s.2 }

/-- Modelled from the spec: the §4.5 search space — candidate offsets bounded by the
paired-contig window (itself bounded by `pctgInfo`'s recorded span) and by
`DEFAULT_MAX_SEARCHED_ALIGNMENT`, candidate gap sizes bounded by the contig frame span
and by `DEFAULT_MAX_GAPS`. -/
def candidateList (p : PairedContig) (pctgInfo : ContigInPctgInfo) (pctgPos : Nat)
    (ctg : Contig) (cstart cstop : Nat) : List BestPctgCtgAlignment :=
  (List.range
      (min (min p.seq.length (pctgInfo.offset + pctgInfo.length) - pctgPos)
        DEFAULT_MAX_SEARCHED_ALIGNMENT + 1)).flatMap fun off =>
    (List.range (min (cstop - cstart) DEFAULT_MAX_GAPS + 1)).map fun gap =>
      scoreCandidate p ctg pctgPos cstart off gap

/-- Modelled from the spec: candidate preference of §4.5 — a challenger replaces the
incumbent when it meets the `MIN_ALIGNMENT` length floor and either the incumbent does
not, or the challenger's homology is strictly higher. -/
def betterCand (a c : BestPctgCtgAlignment) : BestPctgCtgAlignment :=
  if MIN_ALIGNMENT ≤ c.len ∧ (a.len < MIN_ALIGNMENT ∨ a.homology < c.homology) then c else a

/-- Modelled from the spec: the body of `findBestAlignment` (header lines 228-233) is not
among the provided sources.  The bounded search of §4.5: every candidate of the search
space is scored and the best one kept, starting from the zero-offset zero-gap
candidate. -/
def findBestAlignment (p : PairedContig) (pctgInfo : ContigInPctgInfo) (pctgPos : Nat)
    (ctg : Contig) (firstFrame lastFrame : Frame) : BestPctgCtgAlignment :=
  (candidateList p pctgInfo pctgPos ctg firstFrame.start lastFrame.stop).foldl betterCand
    (scoreCandidate p ctg pctgPos firstFrame.start 0 0)

/-! ## Top-level merge and extension (§4.3-§4.4) -/

/-- Modelled from the spec: the body of `mergeContig` (header line 173) is not among the
provided sources.  "Top-level merge entry point — given a paired contig and a new block
pair, decides (via `findBestAlignment`) where the master-or-slave contig named by the
block should be spliced into `pctg`, then delegates to `mergeCtgInPos`"; a merge call
needs the builder's collaborators configured (§9). -/
def mergeContig (b : PctgBuilder) (p : PairedContig) (firstBlock lastBlock : Block)
    (mergeMasterCtg : Bool) : Except BuilderError (PairedContig × MergeOutcome) :=
  if configured b then
    match (if mergeMasterCtg then loadMasterContig b firstBlock.masterId
           else loadSlaveContig b firstBlock.slaveId) with
    | .error e => .error e
    | .ok ctg =>
      let ctgId := if mergeMasterCtg then firstBlock.masterId else firstBlock.slaveId
      let pctgInfo := p.infos.headD
        { ctgId := 0, isMaster := true, offset := 0, length := p.seq.length, gaps := (0, 0) }
      let ff : Frame :=
        if mergeMasterCtg then
          { ctgId := firstBlock.masterId, start := firstBlock.masterStart,
            stop := firstBlock.masterEnd, reversed := firstBlock.reversed }
        else
          { ctgId := firstBlock.slaveId, start := firstBlock.slaveStart,
            stop := firstBlock.slaveEnd, reversed := firstBlock.reversed }
      let lf : Frame :=
        if mergeMasterCtg then
          { ctgId := lastBlock.masterId, start := lastBlock.masterStart,
            stop := lastBlock.masterEnd, reversed := lastBlock.reversed }
        else
          { ctgId := lastBlock.slaveId, start := lastBlock.slaveStart,
            stop := lastBlock.slaveEnd, reversed := lastBlock.reversed }
      let ba := findBestAlignment p pctgInfo pctgInfo.offset ctg ff lf
      mergeCtgInPos b p ctg ctgId ba mergeMasterCtg
  else .error .notConfigured

/-- Whether the paired contig already has a contributing contig of the given origin and
ID. -/
def hasCtg (p : PairedContig) (isMaster : Bool) (ctgId : Nat) : Bool :=
  p.infos.any (fun i => i.isMaster == isMaster && i.ctgId == ctgId)

/-- Modelled from the spec: the body of `extendByBlock` (header line 97) is not among the
provided sources.  "Extends the PairedContig using whichever of the block's two contigs
(master or slave) is not yet represented in `pctg`, if exactly one is missing; if both
are already represented, reconciles the new region" — modelled as a master-side merge in
the reconcile case. -/
def extendByBlock (b : PctgBuilder) (p : PairedContig) (firstBlock lastBlock : Block) :
    Except BuilderError (PairedContig × MergeOutcome) :=
  if hasCtg p true firstBlock.masterId && !hasCtg p false firstBlock.slaveId then
    mergeContig b p firstBlock lastBlock false
  else if hasCtg p false firstBlock.slaveId && !hasCtg p true firstBlock.masterId then
    mergeContig b p firstBlock lastBlock true
  else
    mergeContig b p firstBlock lastBlock true

/-! ## C++ parameter passing of the value-producing operations -/

/-- How a `PairedContig` parameter is passed in the header's declarations: by value
(caller's object is copied), by const reference (callee may not mutate), or by mutable
reference (callee mutates the caller's object). -/
inductive ParamMode where
  | byValue
  | constRef
  | mutRef
  deriving DecidableEq, Repr

/-- The `pctg` parameter of `mergeContig` is declared by value
(`PairedContig pctg`, header line 173). -/
def mergeContigPctgParamMode : ParamMode := .byValue

/-- The `pctg` parameter of `extendByBlock` is declared by const reference
(`const PairedContig &pctg`, header line 97). -/
def extendByBlockPctgParamMode : ParamMode := .constRef

/-- The caller's view of its argument object after a call: only a mutable-reference
parameter lets the callee's final value replace the caller's object. -/
def callerViewAfterCall (mode : ParamMode) (arg mutated : PairedContig) : PairedContig :=
  match mode with
  | .mutRef => mutated
  | _ => arg

/-- The paired contig carried by a merge result, or the fallback when the call
errored. -/
def resultPctg (r : Except BuilderError (PairedContig × MergeOutcome))
    (fallback : PairedContig) : PairedContig :=
  match r with
  | .ok q => q.1
  | .error _ => fallback

/-! ## The bounds invariant (§3) and the mutating-call step relation -/

/-- The PairedContig invariant of §3: "every ContigInPctgInfo's span must lie within the
current base sequence bounds" — `offset + length ≤` length of the base sequence. -/
def pctgInv (p : PairedContig) : Prop :=
  ∀ i ∈ p.infos, i.offset + i.length ≤ p.seq.length

instance (p : PairedContig) : Decidable (pctgInv p) := by
  unfold pctgInv; infer_instance

/-- One mutating builder call on a paired contig: a right extension, a left extension, a
shift, or an in-position merge. -/
inductive BuilderStep where
  | extendFrom (ctg : Contig) (ctgInfo : ContigInPctgInfo) (pos gaps : Nat × Nat)
      (isMasterCtg : Bool)
  | extendUpto (ctg : Contig) (ctgInfo : ContigInPctgInfo) (pos : Nat × Nat)
      (pctgShift : Nat) (isMasterCtg : Bool)
  | shiftStep (shiftSize : Nat)
  | mergeStep (b : PctgBuilder) (ctg : Contig) (ctgId : Nat)
      (bestAlign : BestPctgCtgAlignment) (mergeMaster : Bool)
  deriving DecidableEq, Repr

/-- Applies one mutating builder call; a merge call that errors (unconfigured builder)
leaves the paired contig untouched. -/
def applyStep (p : PairedContig) : BuilderStep → PairedContig
  | .extendFrom ctg ctgInfo pos gaps im => extendPctgWithCtgFrom p ctg ctgInfo pos gaps im
  | .extendUpto ctg ctgInfo pos s im => extendPctgWithCtgUpto p ctg ctgInfo pos s im
  | .shiftStep s => shiftPctgOf p s
  | .mergeStep b ctg ctgId ba mm =>
    match mergeCtgInPos b p ctg ctgId ba mm with
    | .ok q => q.1
    | .error _ => p

/-- Well-formedness of one mutating call on the current paired contig: the positions the
caller hands over lie within the operands (a right extension starts inside the paired
contig and reaches at least its old end, a left extension's shift comes out of the
contig's bases before the matching position, a merge position lies inside the paired
contig). -/
def stepOk (p : PairedContig) : BuilderStep → Bool
  | .extendFrom ctg _ pos _ _ =>
    decide (pos.1 ≤ p.seq.length ∧ p.seq.length ≤ pos.1 + (ctg.seq.length - pos.2))
  | .extendUpto ctg _ pos s _ => decide (s ≤ pos.2 ∧ pos.2 ≤ ctg.seq.length)
  | .shiftStep _ => true
  | .mergeStep _ _ _ ba _ => decide (ba.pos.1 ≤ p.seq.length)

/-- Applies a sequence of mutating builder calls in order. -/
def applySteps (p : PairedContig) : List BuilderStep → PairedContig
  | [] => p
  | s :: rest => applySteps (applyStep p s) rest

/-- Every call of the sequence is well-formed at the state it is applied in. -/
def stepsOk (p : PairedContig) : List BuilderStep → Bool
  | [] => true
  | s :: rest => stepOk p s && stepsOk (applyStep p s) rest

/-! ## Invariant-preservation lemmas -/

theorem shiftPctgOf_inv (p : PairedContig) (s : Nat) (h : pctgInv p) :
    pctgInv (shiftPctgOf p s) := by
  intro i hi
  simp only [shiftPctgOf, List.mem_map] at hi
  obtain ⟨j, hj, rfl⟩ := hi
  have hb := h j hj
  simp only [shiftPctgOf, List.length_append, List.length_replicate]
  omega

theorem extendPctgWithCtgFrom_inv (p : PairedContig) (ctg : Contig)
    (ctgInfo : ContigInPctgInfo) (pos gaps : Nat × Nat) (im : Bool)
    (h1 : pos.1 ≤ p.seq.length) (h2 : p.seq.length ≤ pos.1 + (ctg.seq.length - pos.2))
    (h : pctgInv p) : pctgInv (extendPctgWithCtgFrom p ctg ctgInfo pos gaps im) := by
  intro i hi
  simp only [extendPctgWithCtgFrom, List.mem_cons] at hi
  simp only [extendPctgWithCtgFrom, List.length_append, List.length_take,
    List.length_replicate, List.length_drop]
  rcases hi with rfl | hi
  · simp only []
    omega
  · have hb := h i hi
    omega

theorem extendPctgWithCtgUpto_inv (p : PairedContig) (ctg : Contig)
    (ctgInfo : ContigInPctgInfo) (pos : Nat × Nat) (s : Nat) (im : Bool)
    (hs : s ≤ pos.2) (h2 : pos.2 ≤ ctg.seq.length)
    (h : pctgInv p) : pctgInv (extendPctgWithCtgUpto p ctg ctgInfo pos s im) := by
  intro i hi
  simp only [extendPctgWithCtgUpto, List.mem_map] at hi
  obtain ⟨j, hj, rfl⟩ := hi
  have hb := h j hj
  simp only [extendPctgWithCtgUpto, List.length_append, List.length_take, List.length_drop]
  omega

theorem spliceCtgInPctg_inv (p : PairedContig) (ctg : Contig) (ctgId pp cp : Nat)
    (im : Bool) (hcp : cp ≤ pp) (hpp : pp ≤ p.seq.length)
    (h : pctgInv p) : pctgInv (spliceCtgInPctg p ctg ctgId pp cp im) := by
  unfold spliceCtgInPctg
  split
  · next hlt =>
    exact extendPctgWithCtgFrom_inv p ctg _ (pp, cp) (0, 0) im hpp (Nat.le_of_lt hlt) h
  · next hge =>
    intro i hi
    simp only [addCtgInfo, List.mem_cons] at hi
    rcases hi with rfl | hi
    · simp only [addCtgInfo]
      omega
    · exact h i hi

theorem mergeAnyCtgInPos_inv (p : PairedContig) (ctg : Contig) (ctgId : Nat)
    (ba : BestPctgCtgAlignment) (im : Bool) (hpp : ba.pos.1 ≤ p.seq.length)
    (h : pctgInv p) : pctgInv (mergeAnyCtgInPos p ctg ctgId ba im).1 := by
  unfold mergeAnyCtgInPos
  split
  · split
    · next hlt =>
      apply spliceCtgInPctg_inv _ _ _ _ _ _ (Nat.le_refl _) _
        (shiftPctgOf_inv p (ba.pos.2 - ba.pos.1) h)
      simp only [shiftPctgOf, List.length_append, List.length_replicate]
      omega
    · next hge =>
      exact spliceCtgInPctg_inv p ctg ctgId _ _ im (Nat.le_of_not_lt hge) hpp h
  · exact h

theorem applyStep_inv (p : PairedContig) (s : BuilderStep)
    (hok : stepOk p s = true) (h : pctgInv p) : pctgInv (applyStep p s) := by
  cases s with
  | extendFrom ctg ctgInfo pos gaps im =>
    simp only [stepOk, decide_eq_true_eq] at hok
    exact extendPctgWithCtgFrom_inv p ctg ctgInfo pos gaps im hok.1 hok.2 h
  | extendUpto ctg ctgInfo pos sh im =>
    simp only [stepOk, decide_eq_true_eq] at hok
    exact extendPctgWithCtgUpto_inv p ctg ctgInfo pos sh im hok.1 hok.2 h
  | shiftStep sh => exact shiftPctgOf_inv p sh h
  | mergeStep b ctg ctgId ba mm =>
    simp only [stepOk, decide_eq_true_eq] at hok
    simp only [applyStep, mergeCtgInPos, mergeMasterCtgInPos, mergeSlaveCtgInPos]
    rcases mm with _ | _ <;> rcases hc : configured b with _ | _ <;>
      simp only [if_true, if_false, Bool.false_eq_true] <;>
      first
        | exact h
        | exact mergeAnyCtgInPos_inv p ctg ctgId ba _ hok h

/-! ## Witness fixtures: a configured builder over a small pool, and small operands -/

/-- A two-contig pool used by the concrete witnesses. -/
def wPool : ContigMemPool := [("m0", ['A', 'C', 'G', 'T']), ("m1", ['C', 'G', 'T'])]

/-- A fully configured builder over `wPool`. -/
def wBuilder : PctgBuilder :=
  { masterPool := some wPool, slavePool := some wPool,
    masterRefVector := some ["m0", "m1"], slaveRefVector := some ["m0", "m1"] }

/-- An empty paired contig. -/
def wEmptyPctg : PairedContig := { pctgId := 0, seq := [], infos := [] }

/-- A three-base paired contig with one contributing contig. -/
def wPctg : PairedContig :=
  { pctgId := 0, seq := ['A', 'C', 'G'],
    infos := [{ ctgId := 0, isMaster := true, offset := 0, length := 3, gaps := (0, 0) }] }

/-- A three-base candidate contig. -/
def wCtg : Contig := { id := 1, seq := ['C', 'G', 'T'] }

/-- An alignment passing all acceptance thresholds. -/
def wBa : BestPctgCtgAlignment :=
  { pos := (2, 0), len := 120, homology := mkRat 9 10, mismatches := 0 }

/-- An alignment whose homology `0.5` is below the `MIN_HOMOLOGY` threshold. -/
def wBaBad : BestPctgCtgAlignment :=
  { pos := (2, 0), len := 120, homology := mkRat 1 2, mismatches := 0 }

/-- A block linking master contig 0 to slave contig 1. -/
def wBlock : Block :=
  { masterId := 0, masterStart := 1, masterEnd := 3,
    slaveId := 1, slaveStart := 0, slaveEnd := 2, reversed := false }

/-! ## Claim theorems -/

/-- C6: for every PairedContig `pctg` and shift amount `s`, `shiftPctgOf pctg s` has a
base sequence exactly `s` longer (`s` blank bases prepended) and every
`ContigInPctgInfo`'s offset increased by exactly `s`. -/
theorem shiftPctgOf_offsets_and_length (orig : PairedContig) (s : Nat) :
    (shiftPctgOf orig s).seq.length = orig.seq.length + s ∧
    (shiftPctgOf orig s).infos =
      orig.infos.map (fun i => { i with offset := i.offset + s }) := by
  constructor
  · simp [shiftPctgOf, Nat.add_comm]
  · rfl

/-- C2: after any sequence of well-formed extend/merge/shift builder calls on a
PairedContig satisfying the bounds invariant, the invariant `offset + length ≤`
base-sequence length holds again after every single mutating call (every take-front of
the call sequence). -/
theorem pctgInv_after_builder_steps (steps : List BuilderStep) :
    ∀ p : PairedContig, pctgInv p → stepsOk p steps = true →
      ∀ n : Nat, pctgInv (applySteps p (steps.take n)) := by
  induction steps with
  | nil =>
    intro p h _ n
    simpa [applySteps] using h
  | cons s rest ih =>
    intro p h hok n
    rcases n with _ | n
    · simpa [applySteps] using h
    · simp only [List.take_succ_cons, applySteps]
      simp only [stepsOk, Bool.and_eq_true] at hok
      exact ih (applyStep p s) (applyStep_inv p s hok.1 h) hok.2 n

/-- Concrete run for C2: a shift, an accepted merge and a right extension on `wPctg`,
with the invariant checked after every call. -/
theorem pctgInv_after_builder_steps_witness :
    pctgInv wPctg ∧
    stepsOk wPctg
      [.shiftStep 2, .mergeStep wBuilder wCtg 1 wBa true,
       .extendFrom wCtg { ctgId := 1, isMaster := true, offset := 0, length := 0, gaps := (0, 0) }
         (4, 1) (0, 2) true] = true ∧
    pctgInv (applySteps wPctg
      ([.shiftStep 2, .mergeStep wBuilder wCtg 1 wBa true,
        .extendFrom wCtg { ctgId := 1, isMaster := true, offset := 0, length := 0, gaps := (0, 0) }
          (4, 1) (0, 2) true].take 2)) :=
  ⟨by decide, by decide,
    pctgInv_after_builder_steps _ wPctg (by decide) (by decide) 2⟩

/-- C7: through the header's parameter modes (`mergeContig` takes its PairedContig by
value, `extendByBlock` by const reference), the caller's PairedContig is unchanged after
either call, the result being a separate value. -/
theorem valueProducing_ops_leave_caller_unchanged (b : PctgBuilder) (p : PairedContig)
    (firstBlock lastBlock : Block) (mergeMasterCtg : Bool) :
    callerViewAfterCall mergeContigPctgParamMode p
      (resultPctg (mergeContig b p firstBlock lastBlock mergeMasterCtg) p) = p ∧
    callerViewAfterCall extendByBlockPctgParamMode p
      (resultPctg (extendByBlock b p firstBlock lastBlock) p) = p :=
  ⟨rfl, rfl⟩

/-- C8: a right extension via `extendPctgWithCtgFrom` from `pos` with a contig of length
`L` and trailing gap `g` yields base-sequence length `pos.1 + (L - pos.2) + g`. -/
theorem extendPctgWithCtgFrom_length (orig : PairedContig) (ctg : Contig)
    (ctgInfo : ContigInPctgInfo) (pos : Nat × Nat) (g : Nat) (isMasterCtg : Bool)
    (h1 : pos.1 ≤ orig.seq.length) (h2 : pos.2 ≤ ctg.seq.length) :
    (extendPctgWithCtgFrom orig ctg ctgInfo pos (0, g) isMasterCtg).seq.length =
      pos.1 + (ctg.seq.length - pos.2) + g := by
  simp only [extendPctgWithCtgFrom, List.length_append, List.length_take,
    List.length_replicate, List.length_drop]
  omega

/-- A 480-base paired contig for the C8 scenario. -/
def wOrig480 : PairedContig := { pctgId := 0, seq := List.replicate 480 'A', infos := [] }

/-- A 600-base master contig for the C8 scenario. -/
def wCtg600 : Contig := { id := 2, seq := List.replicate 600 'C' }

/-- Concrete run for C8: `pos = (480, 10)`, `gaps = (0, 5)`, master contig length 600
gives new length `480 + (600 - 10) + 5`. -/
theorem extendPctgWithCtgFrom_length_witness :
    480 ≤ wOrig480.seq.length ∧ 10 ≤ wCtg600.seq.length ∧
    (extendPctgWithCtgFrom wOrig480 wCtg600
      { ctgId := 2, isMaster := true, offset := 0, length := 0, gaps := (0, 0) }
      (480, 10) (0, 5) true).seq.length = 480 + (600 - 10) + 5 := by
  refine ⟨by simp only [wOrig480, List.length_replicate]; omega,
    by simp only [wCtg600, List.length_replicate]; omega, ?_⟩
  have h := extendPctgWithCtgFrom_length wOrig480 wCtg600
    { ctgId := 2, isMaster := true, offset := 0, length := 0, gaps := (0, 0) }
    (480, 10) 5 true (by simp only [wOrig480, List.length_replicate]; omega)
    (by simp only [wCtg600, List.length_replicate]; omega)
  exact h.trans (by decide)

/-- C1: a merge with an alignment whose homology is below `MIN_HOMOLOGY`, or whose
length is below `MIN_ALIGNMENT`, or whose mismatch-to-length ratio exceeds
`MIN_ALIGNMENT_QUOTIENT`, leaves the paired contig completely unchanged and reports
rejection instead of splicing the contig in. -/
theorem mergeCtgInPos_threshold_rejects (b : PctgBuilder) (p : PairedContig) (ctg : Contig)
    (ctgId : Nat) (ba : BestPctgCtgAlignment) (mergeMaster : Bool)
    (hb : configured b = true)
    (h : ba.homology < minHomologyFrac ∨ ba.len < MIN_ALIGNMENT ∨
         MIN_ALIGNMENT_QUOTIENT < mismatchFrac ba.mismatches ba.len) :
    mergeCtgInPos b p ctg ctgId ba mergeMaster = .ok (p, .rejected) := by
  have hacc : isAcceptable ba = false := by
    rcases h with h | h | h
    · have hd : decide (minHomologyFrac ≤ ba.homology) = false :=
        decide_eq_false (not_le.mpr h)
      simp [isAcceptable, hd]
    · have hd : decide (MIN_ALIGNMENT ≤ ba.len) = false :=
        decide_eq_false (Nat.not_le.mpr h)
      simp [isAcceptable, hd]
    · have hd : decide (mismatchFrac ba.mismatches ba.len ≤ MIN_ALIGNMENT_QUOTIENT) = false :=
        decide_eq_false (not_le.mpr h)
      simp [isAcceptable, hd]
  cases mergeMaster <;>
    simp [mergeCtgInPos, mergeMasterCtgInPos, mergeSlaveCtgInPos, hb,
      mergeAnyCtgInPos, hacc]

/-- Concrete run for C1: an alignment with homology `0.5` (below the default 85%
threshold) is rejected and the paired contig comes back unchanged. -/
theorem mergeCtgInPos_threshold_rejects_witness :
    configured wBuilder = true ∧ wBaBad.homology < minHomologyFrac ∧
    mergeCtgInPos wBuilder wPctg wCtg 1 wBaBad true = .ok (wPctg, .rejected) :=
  ⟨by decide, by decide,
    mergeCtgInPos_threshold_rejects wBuilder wPctg wCtg 1 wBaBad true (by decide)
      (Or.inl (by decide))⟩

/-- C3: on a configured builder, `loadMasterContig` and `loadSlaveContig` either return
a Contig whose ID equals the requested ID or fail with NotFound; they never return a
Contig with a different ID. -/
theorem loadContig_id_matches_or_notFound (b : PctgBuilder) (ctgId : Nat)
    (hb : configured b = true) :
    ((∃ c, loadMasterContig b ctgId = .ok c ∧ c.id = ctgId) ∨
      loadMasterContig b ctgId = .error .notFound) ∧
    ((∃ c, loadSlaveContig b ctgId = .ok c ∧ c.id = ctgId) ∨
      loadSlaveContig b ctgId = .error .notFound) := by
  simp only [configured, Bool.and_eq_true, Option.isSome_iff_exists] at hb
  obtain ⟨⟨⟨⟨mp, hmp⟩, ⟨sp, hsp⟩⟩, ⟨mrv, hmrv⟩⟩, ⟨srv, hsrv⟩⟩ := hb
  constructor
  · simp only [loadMasterContig, hmp, hmrv]
    cases hg : mrv.get? ctgId with
    | none => exact Or.inr rfl
    | some nm =>
      dsimp only
      cases hp : poolLookup mp nm with
      | none => exact Or.inr rfl
      | some s => exact Or.inl ⟨{ id := ctgId, seq := s }, rfl, rfl⟩
  · simp only [loadSlaveContig, hsp, hsrv]
    cases hg : srv.get? ctgId with
    | none => exact Or.inr rfl
    | some nm =>
      dsimp only
      cases hp : poolLookup sp nm with
      | none => exact Or.inr rfl
      | some s => exact Or.inl ⟨{ id := ctgId, seq := s }, rfl, rfl⟩

/-- Concrete run for C3 on the witness builder and contig ID 0. -/
theorem loadContig_id_matches_or_notFound_witness :
    configured wBuilder = true ∧
    (((∃ c, loadMasterContig wBuilder 0 = .ok c ∧ c.id = 0) ∨
        loadMasterContig wBuilder 0 = .error .notFound) ∧
      ((∃ c, loadSlaveContig wBuilder 0 = .ok c ∧ c.id = 0) ∨
        loadSlaveContig wBuilder 0 = .error .notFound)) :=
  ⟨by decide, loadContig_id_matches_or_notFound wBuilder 0 (by decide)⟩

/-- C4: for a valid master contig ID whose contig has length `L`, `initByContig`
produces a PairedContig of base-sequence length exactly `L` containing exactly one
`ContigInPctgInfo`, with offset 0, length `L` and no gaps. -/
theorem initByContig_spec (b : PctgBuilder) (pctgId ctgId : Nat) (ctg : Contig)
    (h : loadMasterContig b ctgId = .ok ctg) :
    ∃ pc, initByContig b pctgId ctgId = .ok pc ∧
      pc.seq.length = ctg.seq.length ∧
      pc.infos = [{ ctgId := ctgId, isMaster := true, offset := 0,
                    length := ctg.seq.length, gaps := (0, 0) }] := by
  refine ⟨{ pctgId := pctgId, seq := ctg.seq,
            infos := [{ ctgId := ctgId, isMaster := true, offset := 0,
                        length := ctg.seq.length, gaps := (0, 0) }] }, ?_, rfl, rfl⟩
  simp only [initByContig, h]

/-- Concrete run for C4 on the witness builder and master contig 0 (length 4). -/
theorem initByContig_spec_witness :
    loadMasterContig wBuilder 0 = .ok { id := 0, seq := ['A', 'C', 'G', 'T'] } ∧
    (∃ pc, initByContig wBuilder 9 0 = .ok pc ∧
      pc.seq.length = (['A', 'C', 'G', 'T'] : List Char).length ∧
      pc.infos = [{ ctgId := 0, isMaster := true, offset := 0,
                    length := (['A', 'C', 'G', 'T'] : List Char).length, gaps := (0, 0) }]) :=
  ⟨by decide, initByContig_spec wBuilder 9 0 { id := 0, seq := ['A', 'C', 'G', 'T'] }
    (by decide)⟩

theorem addFirstContigTo_ok_nonempty (b : PctgBuilder) (p q : PairedContig) (cid : Nat)
    (h : addFirstContigTo b p cid = .ok q) : q.infos ≠ [] := by
  unfold addFirstContigTo at h
  split at h
  · unfold initByContig at h
    cases hl : loadMasterContig b cid with
    | error e => rw [hl] at h; simp at h
    | ok ctg =>
      rw [hl] at h
      injection h with h
      subst h
      simp
  · simp at h

theorem addFirstBlockTo_ok_nonempty (b : PctgBuilder) (p q : PairedContig)
    (firstBlock lastBlock : Block)
    (h : addFirstBlockTo b p firstBlock lastBlock = .ok q) : q.infos ≠ [] := by
  unfold addFirstBlockTo at h
  split at h
  · cases hm : loadMasterContig b firstBlock.masterId with
    | error e => rw [hm] at h; simp at h
    | ok mctg =>
      cases hs : loadSlaveContig b firstBlock.slaveId with
      | error e => rw [hm, hs] at h; simp at h
      | ok sctg =>
        rw [hm, hs] at h
        injection h with h
        subst h
        simp
  · simp at h

/-- C5: `addFirstBlockTo` and `addFirstContigTo` fail with InvalidState on a non-empty
PairedContig; in particular, after either succeeds on an initially empty target, a
second call on the result (without resetting) always fails. -/
theorem addFirst_requires_empty (b : PctgBuilder) (p q : PairedContig)
    (firstBlock lastBlock : Block) (cid cid2 : Nat) :
    (p.infos ≠ [] →
      addFirstBlockTo b p firstBlock lastBlock = .error .invalidState ∧
      addFirstContigTo b p cid = .error .invalidState) ∧
    (addFirstBlockTo b p firstBlock lastBlock = .ok q →
      addFirstBlockTo b q firstBlock lastBlock = .error .invalidState ∧
      addFirstContigTo b q cid2 = .error .invalidState) ∧
    (addFirstContigTo b p cid = .ok q →
      addFirstBlockTo b q firstBlock lastBlock = .error .invalidState ∧
      addFirstContigTo b q cid2 = .error .invalidState) := by
  have base : ∀ (r : PairedContig) (c : Nat), r.infos ≠ [] →
      addFirstBlockTo b r firstBlock lastBlock = .error .invalidState ∧
      addFirstContigTo b r c = .error .invalidState := by
    intro r c hr
    constructor
    · unfold addFirstBlockTo
      rw [if_neg hr]
    · unfold addFirstContigTo
      rw [if_neg hr]
  exact ⟨base p cid,
    fun h => base q cid2 (addFirstBlockTo_ok_nonempty b p q firstBlock lastBlock h),
    fun h => base q cid2 (addFirstContigTo_ok_nonempty b p q cid h)⟩

/-- The paired contig produced by seeding the empty target with master contig 0. -/
def wSeeded : PairedContig :=
  { pctgId := 0, seq := ['A', 'C', 'G', 'T'],
    infos := [{ ctgId := 0, isMaster := true, offset := 0, length := 4, gaps := (0, 0) }] }

/-- Concrete run for C5: seeding the empty target succeeds and the immediate second
calls fail with InvalidState. -/
theorem addFirst_requires_empty_witness :
    addFirstContigTo wBuilder wEmptyPctg 0 = .ok wSeeded ∧
    (addFirstBlockTo wBuilder wSeeded wBlock wBlock = .error .invalidState ∧
      addFirstContigTo wBuilder wSeeded 1 = .error .invalidState) :=
  ⟨by decide,
    (addFirst_requires_empty wBuilder wEmptyPctg wSeeded wBlock wBlock 0 1).2.2 (by decide)⟩

/-- C10: a PctgBuilder constructed with all collaborators left at their `NULL` defaults
fails fast with a configuration error, rather than dereferencing a null pointer, when
any merge operation is attempted on it. -/
theorem merge_on_default_builder_fails (p : PairedContig) (firstBlock lastBlock : Block)
    (ctg : Contig) (ctgId : Nat) (ba : BestPctgCtgAlignment) (mm : Bool) :
    mergeContig PctgBuilder.default p firstBlock lastBlock mm = .error .notConfigured ∧
    mergeCtgInPos PctgBuilder.default p ctg ctgId ba mm = .error .notConfigured ∧
    extendByBlock PctgBuilder.default p firstBlock lastBlock = .error .notConfigured := by
  have hb : configured PctgBuilder.default = false := rfl
  refine ⟨?_, ?_, ?_⟩
  · simp [mergeContig, hb]
  · cases mm <;> simp [mergeCtgInPos, mergeMasterCtgInPos, mergeSlaveCtgInPos, hb]
  · unfold extendByBlock
    split
    · simp [mergeContig, hb]
    · split
      · simp [mergeContig, hb]
      · simp [mergeContig, hb]

/-! ## Lemmas on the candidate fold of the alignment search -/

theorem betterCand_eq_or (a c : BestPctgCtgAlignment) :
    betterCand a c = a ∨ betterCand a c = c := by
  unfold betterCand
  split
  · exact Or.inr rfl
  · exact Or.inl rfl

theorem betterCand_absorbs (a c x : BestPctgCtgAlignment)
    (hx : x = a ∨ x = c) (hm : MIN_ALIGNMENT ≤ x.len) :
    MIN_ALIGNMENT ≤ (betterCand a c).len ∧ x.homology ≤ (betterCand a c).homology := by
  unfold betterCand
  rcases hx with rfl | rfl
  · split
    · next hcond =>
      rcases hcond.2 with hlen | hhom
      · exact absurd hm (Nat.not_le.mpr hlen)
      · exact ⟨hcond.1, le_of_lt hhom⟩
    · exact ⟨hm, le_refl _⟩
  · split
    · next hcond => exact ⟨hcond.1, le_refl _⟩
    · next hcond =>
      push_neg at hcond
      have h2 := hcond hm
      exact ⟨h2.1, h2.2⟩

theorem foldl_betterCand_mem (cs : List BestPctgCtgAlignment) :
    ∀ a : BestPctgCtgAlignment, cs.foldl betterCand a = a ∨ cs.foldl betterCand a ∈ cs := by
  induction cs with
  | nil => intro a; exact Or.inl rfl
  | cons c cs ih =>
    intro a
    simp only [List.foldl_cons]
    rcases ih (betterCand a c) with h | h
    · rcases betterCand_eq_or a c with h2 | h2
      · exact Or.inl (h.trans h2)
      · refine Or.inr ?_
        rw [h, h2]
        exact List.mem_cons_self c cs
    · exact Or.inr (List.mem_cons_of_mem c h)

theorem foldl_betterCand_best (cs : List BestPctgCtgAlignment) :
    ∀ a x : BestPctgCtgAlignment, (x = a ∨ x ∈ cs) → MIN_ALIGNMENT ≤ x.len →
      MIN_ALIGNMENT ≤ (cs.foldl betterCand a).len ∧
      x.homology ≤ (cs.foldl betterCand a).homology := by
  induction cs with
  | nil =>
    intro a x hx hm
    rcases hx with rfl | hx
    · exact ⟨hm, le_refl _⟩
    · cases hx
  | cons c cs ih =>
    intro a x hx hm
    simp only [List.foldl_cons]
    have key : ∀ y : BestPctgCtgAlignment, (y = a ∨ y = c) → MIN_ALIGNMENT ≤ y.len →
        MIN_ALIGNMENT ≤ (cs.foldl betterCand (betterCand a c)).len ∧
        y.homology ≤ (cs.foldl betterCand (betterCand a c)).homology := by
      intro y hy hym
      have habs := betterCand_absorbs a c y hy hym
      have hres := ih (betterCand a c) (betterCand a c) (Or.inl rfl) habs.1
      exact ⟨hres.1, le_trans habs.2 hres.2⟩
    rcases hx with hxa | hxc
    · exact key x (Or.inl hxa) hm
    · rcases List.mem_cons.mp hxc with hxc2 | hxm
      · exact key x (Or.inr hxc2) hm
      · exact ih (betterCand a c) x (Or.inr hxm) hm

theorem scoreCandidate_zero_mem (p : PairedContig) (pctgInfo : ContigInPctgInfo)
    (pctgPos : Nat) (ctg : Contig) (cstart cstop : Nat) :
    scoreCandidate p ctg pctgPos cstart 0 0 ∈
      candidateList p pctgInfo pctgPos ctg cstart cstop := by
  unfold candidateList
  refine List.mem_flatMap.mpr ⟨0, List.mem_range.mpr (Nat.succ_pos _), ?_⟩
  exact List.mem_map.mpr ⟨0, List.mem_range.mpr (Nat.succ_pos _), rfl⟩

/-- C9: `findBestAlignment`'s search space is bounded by
`DEFAULT_MAX_SEARCHED_ALIGNMENT` candidate offsets and `DEFAULT_MAX_GAPS` candidate gap
sizes; the result is one of the scored candidates, meets `MIN_ALIGNMENT` and has the
highest homology among the candidates that meet it whenever some candidate does, and is
flagged not-acceptable when no candidate meets the length floor. -/
theorem findBestAlignment_spec (p : PairedContig) (pctgInfo : ContigInPctgInfo)
    (pctgPos : Nat) (ctg : Contig) (firstFrame lastFrame : Frame) :
    (candidateList p pctgInfo pctgPos ctg firstFrame.start lastFrame.stop).length ≤
      (DEFAULT_MAX_SEARCHED_ALIGNMENT + 1) * (DEFAULT_MAX_GAPS + 1) ∧
    findBestAlignment p pctgInfo pctgPos ctg firstFrame lastFrame ∈
      candidateList p pctgInfo pctgPos ctg firstFrame.start lastFrame.stop ∧
    (∀ x ∈ candidateList p pctgInfo pctgPos ctg firstFrame.start lastFrame.stop,
      MIN_ALIGNMENT ≤ x.len →
        MIN_ALIGNMENT ≤ (findBestAlignment p pctgInfo pctgPos ctg firstFrame lastFrame).len ∧
        x.homology ≤
          (findBestAlignment p pctgInfo pctgPos ctg firstFrame lastFrame).homology) ∧
    ((∀ x ∈ candidateList p pctgInfo pctgPos ctg firstFrame.start lastFrame.stop,
        x.len < MIN_ALIGNMENT) →
      isAcceptable (findBestAlignment p pctgInfo pctgPos ctg firstFrame lastFrame) = false) := by
  have hmem : findBestAlignment p pctgInfo pctgPos ctg firstFrame lastFrame ∈
      candidateList p pctgInfo pctgPos ctg firstFrame.start lastFrame.stop := by
    unfold findBestAlignment
    rcases foldl_betterCand_mem
        (candidateList p pctgInfo pctgPos ctg firstFrame.start lastFrame.stop)
        (scoreCandidate p ctg pctgPos firstFrame.start 0 0) with h | h
    · rw [h]
      exact scoreCandidate_zero_mem p pctgInfo pctgPos ctg firstFrame.start lastFrame.stop
    · exact h
  refine ⟨?_, hmem, ?_, ?_⟩
  · unfold candidateList
    rw [List.length_flatMap]
    simp only [Function.comp_def, List.length_map, List.length_range]
    rw [List.map_const', List.sum_replicate, List.length_range, smul_eq_mul]
    apply Nat.mul_le_mul <;> exact Nat.succ_le_succ (Nat.min_le_right _ _)
  · intro x hx hxm
    unfold findBestAlignment
    exact foldl_betterCand_best
      (candidateList p pctgInfo pctgPos ctg firstFrame.start lastFrame.stop)
      (scoreCandidate p ctg pctgPos firstFrame.start 0 0) x (Or.inr hx) hxm
  · intro hall
    have hlt := hall _ hmem
    have hd : decide (MIN_ALIGNMENT ≤
        (findBestAlignment p pctgInfo pctgPos ctg firstFrame lastFrame).len) = false :=
      decide_eq_false (Nat.not_le.mpr hlt)
    simp [isAcceptable, hd]

/-- Concrete run for C9 on the small witness paired contig and contig. -/
theorem findBestAlignment_spec_witness :
    (candidateList wPctg
        { ctgId := 0, isMaster := true, offset := 0, length := 3, gaps := (0, 0) } 0 wCtg
        0 2).length ≤ (DEFAULT_MAX_SEARCHED_ALIGNMENT + 1) * (DEFAULT_MAX_GAPS + 1) ∧
    findBestAlignment wPctg
        { ctgId := 0, isMaster := true, offset := 0, length := 3, gaps := (0, 0) } 0 wCtg
        { ctgId := 1, start := 0, stop := 2, reversed := false }
        { ctgId := 1, start := 0, stop := 2, reversed := false } ∈
      candidateList wPctg
        { ctgId := 0, isMaster := true, offset := 0, length := 3, gaps := (0, 0) } 0 wCtg
        0 2 ∧
    (∀ x ∈ candidateList wPctg
        { ctgId := 0, isMaster := true, offset := 0, length := 3, gaps := (0, 0) } 0 wCtg
        0 2,
      MIN_ALIGNMENT ≤ x.len →
        MIN_ALIGNMENT ≤ (findBestAlignment wPctg
          { ctgId := 0, isMaster := true, offset := 0, length := 3, gaps := (0, 0) } 0 wCtg
          { ctgId := 1, start := 0, stop := 2, reversed := false }
          { ctgId := 1, start := 0, stop := 2, reversed := false }).len ∧
        x.homology ≤ (findBestAlignment wPctg
          { ctgId := 0, isMaster := true, offset := 0, length := 3, gaps := (0, 0) } 0 wCtg
          { ctgId := 1, start := 0, stop := 2, reversed := false }
          { ctgId := 1, start := 0, stop := 2, reversed := false }).homology) ∧
    ((∀ x ∈ candidateList wPctg
        { ctgId := 0, isMaster := true, offset := 0, length := 3, gaps := (0, 0) } 0 wCtg
        0 2,
        x.len < MIN_ALIGNMENT) →
      isAcceptable (findBestAlignment wPctg
        { ctgId := 0, isMaster := true, offset := 0, length := 3, gaps := (0, 0) } 0 wCtg
        { ctgId := 1, start := 0, stop := 2, reversed := false }
        { ctgId := 1, start := 0, stop := 2, reversed := false }) = false) :=
  findBestAlignment_spec wPctg
    { ctgId := 0, isMaster := true, offset := 0, length := 3, gaps := (0, 0) } 0 wCtg
    { ctgId := 1, start := 0, stop := 2, reversed := false }
    { ctgId := 1, start := 0, stop := 2, reversed := false }

end GamNgs
